import Mathlib

/-!
Shallow embedding of the distorage Chord DHT node
(`src/distorage/server/dht/dht.py`) and the DHT session layer
(`src/distorage/server/dht/dht_session.py`).

Modelling conventions:
* SHA-1 (`sha1_hash`, an external `hashlib` primitive) is abstracted as a
  parameter `hash : String → Nat`; node and key identifiers are plain
  naturals (valid ring identifiers are `< 2 ^ 160`).
* Python dicts (`elems`, `repl_elems`) are association lists with the
  update-in-place / append-on-new semantics of Python dicts (`dictSet`);
  Python sets (`removed_elems`) are `Finset Nat`.
* Remote calls made through `DhtSession` are oracles passed as function
  parameters; an oracle answering `none` models a raised
  `ServiceConnectionError`.  Outgoing replica / forwarded-store RPCs are
  additionally recorded in an explicit trace (`NetCall`) so that
  "no RPC was issued" is statable.
* The element-migration subroutines `_fix_elem_dict`,
  `_update_repl_elements` and `_resend_replica_to_successor` contain
  unbounded network retry loops (`while not resp`) and disk I/O; they are
  abstracted as state-transformer oracles (`postPred`, `postSucc`,
  `updElems`).  By inspection of the source they never assign
  `_predecessor`/`_successor`/`ip_addr`; where a theorem needs this it is
  an explicit hypothesis.
* Values stored in the DHT (Python `Any`: bytes, strings or path strings)
  are modelled as `String`; the disk (`_load_element`) is an oracle
  `fs : String → Option String`.
-/

/-- Python response triple `(data, success, msg)` from `distorage/response.py`. -/
structure Resp (α : Type) where
  data : α
  ok : Bool
  msg : String
deriving DecidableEq, Repr

/-- Embeds `new_response(data)` with the default flags `success=True, msg=""`. -/
def newResponse {α : Type} (d : α) : Resp α :=
  ⟨d, true, ""⟩

/-- Embeds `new_error_response(msg)`: data `None`, success `False`. -/
def newErrorResponse (msg : String) : Resp (Option String) :=
  ⟨none, false, msg⟩

/-- Embeds `new_void_response(msg=...)`: data `None`, success `True`. -/
def newVoidResponse (msg : String) : Resp (Option String) :=
  ⟨none, true, msg⟩

/-- Element keys are `Union[str, int]` in the source. -/
inductive PKey where
  | str (s : String)
  | num (n : Nat)
deriving DecidableEq, Repr

/-- Embeds `hashed = sha1_hash(elem_key) if isinstance(elem_key, str) else elem_key`. -/
def keyHash (hash : String → Nat) : PKey → Nat
  | PKey.str s => hash s
  | PKey.num n => n

/-- An outgoing RPC issued by `ChordNode.store` (recorded so that the absence
of a replica RPC is statable). -/
inductive NetCall where
  | storeReplica (target : String) (key : PKey) (elem : String)
      (persist : Option String)
  | storeRemote (target : String) (key : PKey) (elem : String)
      (overwrite check_removed : Bool) (persist : Option String)
deriving DecidableEq

/-- State of one `ChordNode` (`__init__`, dht.py lines 86-97).  `node_id` is
not a field: it is `sha1_hash(ip_addr)`, recomputed via `nodeId`. -/
structure NodeState where
  ip_addr : String
  predecessor : Option String
  successor : String
  fingers : List String
  next : Int
  elems : List (Nat × String)
  repl_elems : List (Nat × String)
  removed_elems : Finset Nat
deriving DecidableEq

/-- Embeds `self.node_id = sha1_hash(ip_addr)`. -/
def nodeId (hash : String → Nat) (st : NodeState) : Nat :=
  hash st.ip_addr

/-- Embeds `_belongs(value, lower, upper)` (dht.py lines 33-48):
`(lower < value <= upper) or (lower > upper and (lower < value or value < upper))`. -/
def belongs (value lower upper : Nat) : Bool :=
  (decide (lower < value) && decide (value ≤ upper)) ||
    (decide (lower > upper) && (decide (lower < value) || decide (value < upper)))

/-- Python dict lookup `d[k]` / `d.get(k)` on an association list. -/
def dictGet (d : List (Nat × String)) (k : Nat) : Option String :=
  match d with
  | [] => none
  | (k1, v) :: rest => if k1 = k then some v else dictGet rest k

/-- Python dict update `d[k] = v`: replace in place when the key exists,
append otherwise. -/
def dictSet (d : List (Nat × String)) (k : Nat) (v : String) :
    List (Nat × String) :=
  match d with
  | [] => [(k, v)]
  | (k1, v1) :: rest =>
      if k1 = k then (k, v) :: rest else (k1, v1) :: dictSet rest k v

/-- Embeds `for key, val in repl.items(): elems[key] = val`
(the replica-promotion loop of the predecessor / successor setters). -/
def promote (repl : List (Nat × String)) (elems : List (Nat × String)) :
    List (Nat × String) :=
  repl.foldl (fun e kv => dictSet e kv.1 kv.2) elems

/-- Embeds the promotion block shared by both setters: copy every
`repl_elems` entry into `elems`, then clear `repl_elems`. -/
def promoteRepl (st : NodeState) : NodeState :=
  { st with elems := promote st.repl_elems st.elems, repl_elems := [] }

/-- Embeds `closest_preceding_node` (dht.py lines 208-222): scan the finger
table from index 159 down, skip falsy (empty) entries, return the first
finger whose id lies in `(self.node_id, node_id)`; default to own ip. -/
def closest_preceding_node (hash : String → Nat) (st : NodeState)
    (node_id : Nat) : String :=
  match st.fingers.reverse.find?
      (fun f => !(f == "") && belongs (hash f) (nodeId hash st) node_id) with
  | some f => f
  | none => st.ip_addr

/-- Embeds `find_successor` (dht.py lines 184-206).  `netFS target id` is the
remote `session.find_successor(id)`; `none` models `ServiceConnectionError`. -/
def find_successor (hash : String → Nat)
    (netFS : String → Nat → Option (Resp String)) (st : NodeState)
    (node_id : Nat) : Resp String :=
  if belongs node_id (nodeId hash st) (hash st.successor) then
    newResponse st.successor
  else
    let closest := closest_preceding_node hash st node_id
    if closest = st.ip_addr then newResponse st.ip_addr
    else
      match netFS closest node_id with
      | some r => r
      | none => ⟨"", false, "Connection error to node " ++ closest⟩

/-- Embeds the membership test `elem_key in self.removed_elems` of
`ChordNode.find` (dht.py line 402).  There `elem_key` is the raw `str` key
while `removed_elems` is a `Set[int]` of SHA-1 hashes; in Python a `str`
never compares equal to an `int`, so the test is always `False`. -/
def strInIntSet (_elem_key : String) (_s : Finset Nat) : Bool :=
  false

/-- Embeds `ChordNode.find` (dht.py lines 375-420).  `fs` is the disk oracle
for `_load_element`; `netFind target key is_file` is the remote
`session.find`, `none` modelling `ServiceConnectionError`. -/
def find (hash : String → Nat) (fs : String → Option String)
    (netFS : String → Nat → Option (Resp String))
    (netFind : String → String → Bool → Option (Resp (Option String)))
    (st : NodeState) (elem_key : String) (is_file : Bool) :
    Resp (Option String) :=
  let hashed := hash elem_key
  match dictGet st.repl_elems hashed with
  | some e => ⟨if is_file then fs e else some e, true, ""⟩
  | none =>
    let fsr := find_successor hash netFS st hashed
    if fsr.ok = false then newErrorResponse "Error finding successor"
    else if fsr.data = st.ip_addr then
      let elem : Option String :=
        if strInIntSet elem_key st.removed_elems then none
        else
          let e0 : Option String :=
            match dictGet st.elems hashed with
            | some e => some e
            | none => dictGet st.repl_elems hashed
          if is_file then (match e0 with | some e => fs e | none => none)
          else e0
      ⟨elem, true, ""⟩
    else
      match netFind fsr.data elem_key is_file with
      | some r => r
      | none => newErrorResponse ("Connection error to node " ++ fsr.data)

/-- Embeds `ChordNode.store` (dht.py lines 422-509).  Returns the new node
state, the response, and the trace of outgoing store RPCs.  `netStore` is
the remote `session.store` (`none` = `ServiceConnectionError`); the replica
RPC result is ignored by the source (exceptions are only logged), so only
its emission is recorded.  With `persist_path` set, `_save_element` writes
the bytes to disk and the stored value becomes the path string. -/
def store (hash : String → Nat)
    (netFS : String → Nat → Option (Resp String))
    (netStore : String → PKey → String → Bool → Bool → Option String →
      Option (Resp (Option String)))
    (st : NodeState) (elem_key : PKey) (elem : Option String)
    (overwrite check_removed : Bool) (persist_path : Option String) :
    NodeState × Resp (Option String) × List NetCall :=
  match elem with
  | none => (st, newErrorResponse "Element is None", [])
  | some v =>
    let hashed := keyHash hash elem_key
    let fsr := find_successor hash netFS st hashed
    if fsr.ok = false then
      (st, newErrorResponse "Error finding successor", [])
    else if fsr.data = st.ip_addr then
      if overwrite = false ∧ (dictGet st.elems hashed).isSome then
        (st, newErrorResponse "Element already exists", [])
      else if check_removed = true ∧ hashed ∈ st.removed_elems then
        (st, newVoidResponse "Element was removed in the past", [])
      else
        let saved : String := match persist_path with
          | some p => p
          | none => v
        let st1 : NodeState :=
          { st with
            elems := dictSet st.elems hashed saved,
            removed_elems :=
              if hashed ∈ st.removed_elems then
                st.removed_elems.erase hashed
              else st.removed_elems }
        let trace : List NetCall :=
          if st.successor = st.ip_addr then []
          else [NetCall.storeReplica st.successor elem_key v persist_path]
        (st1, newVoidResponse "Element stored", trace)
    else
      match netStore fsr.data elem_key v overwrite check_removed
          persist_path with
      | some r =>
          (st, r, [NetCall.storeRemote fsr.data elem_key v overwrite
            check_removed persist_path])
      | none =>
          (st, newErrorResponse ("Connection error to node " ++ fsr.data),
            [NetCall.storeRemote fsr.data elem_key v overwrite
              check_removed persist_path])

/-- Embeds the `@predecessor.setter` (dht.py lines 104-130).  `postPred`
abstracts the trailing `_fix_elem_dict(); _update_repl_elements()` pair
(unbounded network retry loops), which runs only when the new predecessor
is non-null. -/
def set_predecessor (postPred : NodeState → NodeState) (st : NodeState)
    (p : Option String) : NodeState :=
  if p = st.predecessor then st
  else
    let st1 := if p = none then promoteRepl st else st
    let st2 := { st1 with predecessor := p }
    if p = none then st2 else postPred st2

/-- Embeds the `@successor.setter` (dht.py lines 137-163).  `postSucc`
abstracts the trailing `_fix_elem_dict(); _resend_replica_to_successor()`
pair, which runs only when the new successor is not this node. -/
def set_successor (postSucc : NodeState → NodeState) (st : NodeState)
    (s : String) : NodeState :=
  if s = st.successor then st
  else
    let st1 := if s = st.ip_addr then promoteRepl st else st
    let st2 := { st1 with successor := s }
    if s = st.ip_addr then st2 else postSucc st2

/-- Embeds `_update_repl_elements` (dht.py lines 320-325): the guard
`if keys:` skips the unbounded `_update_elements` loop (here the oracle
`updElems`) when `repl_elems` is empty. -/
def update_repl_elements (updElems : NodeState → NodeState)
    (st : NodeState) : NodeState :=
  if st.repl_elems = [] then st else updElems st

/-- Embeds one iteration of `check_predecessor` (dht.py lines 348-359):
probe the predecessor (`probe_ok`); on failure set the predecessor to
`None` (running the setter's promotion) and call `_update_repl_elements`. -/
def check_predecessor_tick (postPred updElems : NodeState → NodeState)
    (probe_ok : Bool) (st : NodeState) : NodeState :=
  match st.predecessor with
  | none => st
  | some _ =>
      if probe_ok then st
      else update_repl_elements updElems (set_predecessor postPred st none)

/-- Embeds `ChordNode.join` (dht.py lines 224-243), run at the bootstrap
node with `node_ip` the joining node.  Note the source resolves
`find_successor(self.node_id)` (the bootstrap's own id) and, in the forward
branch, calls `session.join(node_succ)` with `node_succ` as argument. -/
def join (hash : String → Nat)
    (netFS : String → Nat → Option (Resp String))
    (netJoin : String → String → Resp String)
    (postPred : NodeState → NodeState) (st : NodeState) (node_ip : String) :
    NodeState × Resp String :=
  let resp := find_successor hash netFS st (nodeId hash st)
  if resp.ok = false then (st, resp)
  else if resp.data = st.ip_addr then
    (set_predecessor postPred st (some node_ip), newResponse st.ip_addr)
  else
    (st, netJoin resp.data resp.data)

/-- Embeds one iteration of `fix_fingers` (dht.py lines 278-288):
increment `next` (wrapping `>= 160` to `0`), then
`fingers[next] = find_successor(node_id + (1 << next) - 1)` or `""` on
failure.  The lookup target is not reduced modulo `2 ^ 160`. -/
def fix_fingers_tick (hash : String → Nat)
    (netFS : String → Nat → Option (Resp String)) (st : NodeState) :
    NodeState :=
  let nxt : Int := if st.next + 1 ≥ 160 then 0 else st.next + 1
  let r := find_successor hash netFS st
    (nodeId hash st + 2 ^ nxt.toNat - 1)
  { st with
    next := nxt,
    fingers := st.fingers.set nxt.toNat (if r.ok then r.data else "") }

/-- Result of `DhtSession.__enter__` (dht_session.py lines 129-142): either
a raised `ServiceConnectionError` or the usable session handle
(`self.dht_session.root`). -/
inductive EnterResult where
  | connError (msg : String)
  | handle
deriving DecidableEq

/-- Embeds `DhtSessionService.exposed_register` (dht_session.py lines
49-55): compare the offered secret against `ServerManager.passwd`; note
that BOTH paths return `new_error_response` (`success=False`) in the
source. -/
def exposed_register (cluster_passwd passwd : String) :
    Resp (Option String) :=
  if passwd ≠ cluster_passwd then newErrorResponse "Wrong password"
  else newErrorResponse "Registered"

/-- Python truthiness of a `Response` value: responses are 3-tuples
`(data, success, msg)`, and a non-empty tuple is always truthy, whatever
its components. -/
def pyTruthy (_r : Resp (Option String)) : Bool :=
  true

/-- Embeds `DhtSession.__enter__` (dht_session.py lines 129-142):
connect (raising a connection error when the host is unreachable), call
`register(dht_id, passwd)`, and raise `ServiceConnectionError(resp.msg)`
when `not resp`; otherwise hand back the session root. -/
def dht_session_enter (reachable : Bool) (cluster_passwd passwd : String) :
    EnterResult :=
  if reachable = false then
    EnterResult.connError "Could not connect to DHT server"
  else
    let resp := exposed_register cluster_passwd passwd
    if pyTruthy resp = false then EnterResult.connError resp.msg
    else EnterResult.handle

/-! ### Basic lemmas about the arc predicate and the dict model -/

/-- A value equal to the lower bound is never inside the arc. -/
theorem belongs_lower_self (l u : Nat) : belongs l l u = false := by
  rw [Bool.eq_false_iff]
  intro h
  simp only [belongs, Bool.or_eq_true, Bool.and_eq_true,
    decide_eq_true_eq] at h
  omega

/-- The arc with equal bounds is empty. -/
theorem belongs_bounds_eq (v n : Nat) : belongs v n n = false := by
  rw [Bool.eq_false_iff]
  intro h
  simp only [belongs, Bool.or_eq_true, Bool.and_eq_true,
    decide_eq_true_eq] at h
  omega

theorem dictGet_set_self (d : List (Nat × String)) (k : Nat) (v : String) :
    dictGet (dictSet d k v) k = some v := by
  induction d with
  | nil => simp [dictGet, dictSet]
  | cons hd tl ih =>
      obtain ⟨k1, v1⟩ := hd
      by_cases h : k1 = k
      · simp [dictGet, dictSet, h]
      · simp [dictGet, dictSet, h, ih]

theorem dictGet_set_ne (d : List (Nat × String)) (k k1 : Nat) (v : String)
    (h : k1 ≠ k) : dictGet (dictSet d k1 v) k = dictGet d k := by
  induction d with
  | nil => simp [dictGet, dictSet, h]
  | cons hd tl ih =>
      obtain ⟨k2, v2⟩ := hd
      by_cases h2 : k2 = k1
      · subst h2
        simp [dictGet, dictSet, h]
      · simp [dictGet, dictSet, h2, ih]

theorem dictGet_eq_none_of_not_mem (d : List (Nat × String)) (k : Nat)
    (h : k ∉ d.map Prod.fst) : dictGet d k = none := by
  induction d with
  | nil => rfl
  | cons hd tl ih =>
      obtain ⟨k1, v1⟩ := hd
      simp only [List.map_cons, List.mem_cons, not_or] at h
      have hne : ¬ k1 = k := fun hk => h.1 hk.symm
      simp [dictGet, hne, ih h.2]

theorem promote_cons (k1 : Nat) (v1 : String) (tl e : List (Nat × String)) :
    promote ((k1, v1) :: tl) e = promote tl (dictSet e k1 v1) :=
  rfl

theorem promote_get_of_none (l : List (Nat × String))
    (e : List (Nat × String)) (k : Nat) (h : dictGet l k = none) :
    dictGet (promote l e) k = dictGet e k := by
  induction l generalizing e with
  | nil => rfl
  | cons hd tl ih =>
      obtain ⟨k1, v1⟩ := hd
      rw [promote_cons]
      by_cases hk : k1 = k
      · rw [dictGet, if_pos hk] at h
        exact absurd h (by simp)
      · rw [dictGet, if_neg hk] at h
        rw [ih _ h, dictGet_set_ne _ _ _ _ hk]

theorem promote_get_of_some (l : List (Nat × String))
    (e : List (Nat × String)) (k : Nat) (v : String)
    (hnd : (l.map Prod.fst).Nodup) (h : dictGet l k = some v) :
    dictGet (promote l e) k = some v := by
  induction l generalizing e with
  | nil => simp [dictGet] at h
  | cons hd tl ih =>
      obtain ⟨k1, v1⟩ := hd
      rw [promote_cons]
      simp only [List.map_cons, List.nodup_cons] at hnd
      by_cases hk : k1 = k
      · subst hk
        rw [dictGet, if_pos rfl] at h
        have htl : dictGet tl k1 = none :=
          dictGet_eq_none_of_not_mem _ _ hnd.1
        rw [promote_get_of_none _ _ _ htl, dictGet_set_self]
        exact h
      · rw [dictGet, if_neg hk] at h
        exact ih (dictSet e k1 v1) hnd.2 h

/-! ### Lemmas about `find_successor` -/

/-- The finger scan for the node's own id always falls through to self:
no finger id can lie in the empty arc `(node_id, node_id)`. -/
theorem closest_preceding_at_self (hash : String → Nat) (st : NodeState) :
    closest_preceding_node hash st (nodeId hash st) = st.ip_addr := by
  unfold closest_preceding_node
  have h : st.fingers.reverse.find?
      (fun f => !(f == "") &&
        belongs (hash f) (nodeId hash st) (nodeId hash st)) = none := by
    rw [List.find?_eq_none]
    intro x _
    simp [belongs_bounds_eq]
  rw [h]

/-- `find_successor(self.node_id)` always answers the node's own ip with
success, whatever the ring looks like: the first arc test has the target
equal to its lower bound, and the finger-scan arc is empty. -/
theorem find_successor_at_self_id (hash : String → Nat)
    (netFS : String → Nat → Option (Resp String)) (st : NodeState) :
    find_successor hash netFS st (nodeId hash st) =
      newResponse st.ip_addr := by
  unfold find_successor
  rw [belongs_lower_self]
  simp only [Bool.false_eq_true, if_false]
  rw [closest_preceding_at_self]
  simp

/-- On a node whose successor is itself and whose fingers are all empty or
itself, every lookup resolves locally to the node's own ip. -/
theorem find_successor_single (hash : String → Nat)
    (netFS : String → Nat → Option (Resp String)) (st : NodeState)
    (h1 : st.successor = st.ip_addr)
    (h2 : ∀ f ∈ st.fingers, f = "" ∨ f = st.ip_addr) (t : Nat) :
    find_successor hash netFS st t = newResponse st.ip_addr := by
  unfold find_successor
  rw [h1]
  have hb : belongs t (nodeId hash st) (hash st.ip_addr) = false := by
    simp only [nodeId]
    exact belongs_bounds_eq t (hash st.ip_addr)
  rw [hb]
  have hc : closest_preceding_node hash st t = st.ip_addr := by
    unfold closest_preceding_node
    have h : st.fingers.reverse.find?
        (fun f => !(f == "") && belongs (hash f) (nodeId hash st) t) =
          none := by
      rw [List.find?_eq_none]
      intro x hx
      rcases h2 x (List.mem_reverse.mp hx) with h | h
      · simp [h]
      · simp only [h, nodeId, belongs_lower_self, Bool.and_false,
          Bool.not_eq_true]
    rw [h]
  simp [hc]

/-! ### Concrete oracles and states for closed instances -/

/-- Disk oracle that finds no file. -/
def fsNone : String → Option String :=
  fun _ => none

/-- Remote `find_successor` oracle: every call raises a connection error. -/
def netFSNone : String → Nat → Option (Resp String) :=
  fun _ _ => none

/-- Remote `find` oracle: every call raises a connection error. -/
def netFindNone : String → String → Bool → Option (Resp (Option String)) :=
  fun _ _ _ => none

/-- Remote `store` oracle: every call raises a connection error. -/
def netStoreNone :
    String → PKey → String → Bool → Bool → Option String →
      Option (Resp (Option String)) :=
  fun _ _ _ _ _ _ => none

/-- Concrete stand-in for sha1 over the ips / keys of the closed scenarios
(all values are valid 160-bit ring identifiers). -/
def hashW : String → Nat :=
  fun s =>
    if s = "a" then 10
    else if s = "b" then 20
    else if s = "c" then 15
    else if s = "k" then 5
    else 0

/-! ### C1 — the key-range predicate -/

/-- C1 counterexample: at `v = 1, lo = 5, hi = 1` (a wrap-around arc with
`v = hi`) the spec formula `(lo < v ≤ hi) ∨ (lo > hi ∧ (v > lo ∨ v ≤ hi))`
holds, yet `_belongs` returns `False`: the source compares `value < upper`
strictly in the wrap-around disjunct. -/
theorem c1_counterexample :
    belongs 1 5 1 = false ∧
      ((5 < 1 ∧ 1 ≤ 1) ∨ (5 > 1 ∧ (1 > 5 ∨ (1 : Nat) ≤ 1))) := by
  constructor
  · decide
  · decide

/-- C1 (amended): `_belongs(v, lo, hi)` is true iff
`(lo < v ≤ hi) ∨ (lo > hi ∧ (v > lo ∨ v < hi))` — the upper comparison of
the wrap-around disjunct is strict, so in the wrap-around case `lo > hi` a
value `v = hi` lies OUTSIDE the arc (unless `v > lo`). -/
theorem c1_belongs_amended (v lo hi : Nat) :
    belongs v lo hi = true ↔
      (lo < v ∧ v ≤ hi) ∨ (lo > hi ∧ (v > lo ∨ v < hi)) := by
  simp only [belongs, Bool.or_eq_true, Bool.and_eq_true, decide_eq_true_eq]

/-! ### C5 — `find` and tombstones -/

/-- Single node `"a"` (id 10) owning the whole ring, holding key id 5 in
`elems` with value `"v"`, with id 5 tombstoned in `removed_elems`. -/
def stC5 : NodeState :=
  { ip_addr := "a"
    predecessor := none
    successor := "a"
    fingers := List.replicate 160 ""
    next := -1
    elems := [(5, "v")]
    repl_elems := []
    removed_elems := {5} }

/-- C5: the claim (and spec) say a tombstoned key must yield
`(null, ok=true)` at the owner, yet on this state — key `"k"` hashes to 5,
which is tombstoned and not replicated — `find` returns the stored value
`"v"`: the source tests the raw `str` key against the `Set[int]` of hashes,
so the tombstone check never fires (dht.py line 402). -/
theorem c5_find_ignores_tombstone :
    find hashW fsNone netFSNone netFindNone stC5 "k" false =
        ⟨some "v", true, ""⟩ ∧
      hashW "k" ∈ stC5.removed_elems ∧
      dictGet stC5.repl_elems (hashW "k") = none := by
  refine ⟨?_, ?_, rfl⟩
  · rfl
  · decide

/-! ### C6 — session registration with a wrong secret -/

/-- C6: acquiring a `DhtSession` to a reachable peer whose cluster secret
is `"s1"` while offering the secret `"s2"` succeeds and hands back a usable
handle, although `exposed_register` reported `ok=false` with
"Wrong password": `__enter__` tests `if not resp:` on the response, and a
non-empty Python tuple is always truthy, so `ServiceConnectionError` is
never raised (dht_session.py lines 136-141). -/
theorem c6_wrong_secret_yields_handle :
    dht_session_enter true "s1" "s2" = EnterResult.handle ∧
      "s1" ≠ "s2" ∧ (exposed_register "s1" "s2").ok = false := by
  refine ⟨rfl, by decide, rfl⟩

/-! ### C4 — tombstone suppression in `store` -/

/-- C4: a `store(k, v, check_removed=true)` handled at the owner node
(`find_successor` answers this node) whose hash is tombstoned returns
`ok=true` with the "removed in the past" message, leaves the node state
untouched (same `elems`, `repl_elems` and `removed_elems`, tombstone still
present) and emits no RPC at all — for every remote-store oracle. -/
theorem c4_store_tombstone_suppression (hash : String → Nat)
    (netFS : String → Nat → Option (Resp String))
    (netStore : String → PKey → String → Bool → Bool → Option String →
      Option (Resp (Option String)))
    (st : NodeState) (k v : String)
    (hok : (find_successor hash netFS st (hash k)).ok = true)
    (hself : (find_successor hash netFS st (hash k)).data = st.ip_addr)
    (hrem : hash k ∈ st.removed_elems) :
    store hash netFS netStore st (PKey.str k) (some v) true true none =
      (st, newVoidResponse "Element was removed in the past", []) := by
  unfold store
  simp only [keyHash]
  simp [hok, hself, hrem]

/-- Single node `"a"` with key id 5 tombstoned and nothing stored. -/
def stC4 : NodeState :=
  { ip_addr := "a"
    predecessor := none
    successor := "a"
    fingers := List.replicate 160 ""
    next := -1
    elems := []
    repl_elems := []
    removed_elems := {5} }

/-- C4 witness: the suppression theorem at the concrete single-node state
`stC4` and key `"k"` (hash 5, tombstoned). -/
theorem c4_tombstone_witness :
    (find_successor hashW netFSNone stC4 (hashW "k")).ok = true ∧
      (find_successor hashW netFSNone stC4 (hashW "k")).data =
        stC4.ip_addr ∧
      hashW "k" ∈ stC4.removed_elems ∧
      store hashW netFSNone netStoreNone stC4 (PKey.str "k") (some "x")
          true true none =
        (stC4, newVoidResponse "Element was removed in the past", []) :=
  ⟨rfl, rfl, by decide,
    c4_store_tombstone_suppression hashW netFSNone netStoreNone stC4 "k"
      "x" rfl rfl (by decide)⟩

/-! ### C8 — `store` with `overwrite=false` on an existing key -/

/-- C8: a `store(k, v, overwrite=false)` handled at the owner node whose
hash already sits in `elems` returns `ok=false` with "Element already
exists", leaves the node state untouched and emits no RPC at all — for
every remote-store oracle. -/
theorem c8_store_no_overwrite_conflict (hash : String → Nat)
    (netFS : String → Nat → Option (Resp String))
    (netStore : String → PKey → String → Bool → Bool → Option String →
      Option (Resp (Option String)))
    (st : NodeState) (k v : String)
    (hok : (find_successor hash netFS st (hash k)).ok = true)
    (hself : (find_successor hash netFS st (hash k)).data = st.ip_addr)
    (hmem : (dictGet st.elems (hash k)).isSome = true) :
    store hash netFS netStore st (PKey.str k) (some v) false false none =
      (st, newErrorResponse "Element already exists", []) := by
  unfold store
  simp only [keyHash]
  simp [hok, hself, hmem]

/-- Single node `"a"` already holding key id 5 with value `"v"`. -/
def stC8 : NodeState :=
  { ip_addr := "a"
    predecessor := none
    successor := "a"
    fingers := List.replicate 160 ""
    next := -1
    elems := [(5, "v")]
    repl_elems := []
    removed_elems := ∅ }

/-- C8 witness: the conflict theorem at the concrete single-node state
`stC8` and key `"k"` (hash 5, already present). -/
theorem c8_conflict_witness :
    (find_successor hashW netFSNone stC8 (hashW "k")).ok = true ∧
      (find_successor hashW netFSNone stC8 (hashW "k")).data =
        stC8.ip_addr ∧
      (dictGet stC8.elems (hashW "k")).isSome = true ∧
      store hashW netFSNone netStoreNone stC8 (PKey.str "k") (some "w")
          false false none =
        (stC8, newErrorResponse "Element already exists", []) :=
  ⟨rfl, rfl, rfl,
    c8_store_no_overwrite_conflict hashW netFSNone netStoreNone stC8 "k"
      "w" rfl rfl rfl⟩

/-! ### C7 — promotion when the predecessor is cleared -/

/-- Clearing a non-null predecessor reduces to the promotion: all of
`repl_elems` is folded into `elems`, `repl_elems` is emptied, and the
pointer becomes `none`; the trailing handoff (`postPred`) does not run on
this branch. -/
theorem set_predecessor_none (postPred : NodeState → NodeState)
    (st : NodeState) (h : st.predecessor ≠ none) :
    set_predecessor postPred st none =
      { st with
        elems := promote st.repl_elems st.elems
        repl_elems := []
        predecessor := none } := by
  obtain ⟨ip, pred, succ, fin, nx, el, rep, rem⟩ := st
  simp only [ne_eq] at h
  have h2 : ¬ ((none : Option String) = pred) := fun hh => h hh.symm
  simp [set_predecessor, promoteRepl, h2]

/-- C7: one `check_predecessor` iteration whose probe of the (non-null)
predecessor fails empties `repl_elems`, clears the predecessor, and every
key-to-value entry of `repl_elems` is found in `elems` afterwards — no
replicated key is dropped. -/
theorem c7_check_predecessor_promotes
    (postPred updElems : NodeState → NodeState) (st : NodeState)
    (q : String) (hp : st.predecessor = some q)
    (hnd : (st.repl_elems.map Prod.fst).Nodup) :
    (check_predecessor_tick postPred updElems false st).repl_elems = [] ∧
      (check_predecessor_tick postPred updElems false st).predecessor =
        none ∧
      ∀ k v, dictGet st.repl_elems k = some v →
        dictGet (check_predecessor_tick postPred updElems false st).elems
          k = some v := by
  have hne : st.predecessor ≠ none := by rw [hp]; simp
  have hstep : check_predecessor_tick postPred updElems false st =
      { st with
        elems := promote st.repl_elems st.elems
        repl_elems := []
        predecessor := none } := by
    unfold check_predecessor_tick
    rw [hp]
    simp only [Bool.false_eq_true, if_false]
    rw [set_predecessor_none postPred st hne]
    simp [update_repl_elements]
  rw [hstep]
  exact ⟨rfl, rfl, fun k v hkv => promote_get_of_some _ _ _ _ hnd hkv⟩

/-- Node `"a"` with live predecessor `"b"` holding two replicated keys. -/
def stC7 : NodeState :=
  { ip_addr := "a"
    predecessor := some "b"
    successor := "a"
    fingers := List.replicate 160 ""
    next := -1
    elems := []
    repl_elems := [(1, "x"), (2, "y")]
    removed_elems := ∅ }

/-- C7 witness: the promotion theorem at `stC7` after a failed probe. -/
theorem c7_promote_witness :
    stC7.predecessor = some "b" ∧
      (stC7.repl_elems.map Prod.fst).Nodup ∧
      (check_predecessor_tick id id false stC7).repl_elems = [] ∧
      dictGet (check_predecessor_tick id id false stC7).elems 1 =
        some "x" := by
  refine ⟨rfl, by decide, ?_, ?_⟩
  · exact (c7_check_predecessor_promotes id id stC7 "b" rfl (by decide)).1
  · exact (c7_check_predecessor_promotes id id stC7 "b" rfl
      (by decide)).2.2 1 "x" rfl

/-! ### C10 — promotion when the successor collapses to self -/

/-- Setting the successor to the node's own ip (from a different value)
reduces to the promotion: all of `repl_elems` is folded into `elems`,
`repl_elems` is emptied, the pointer becomes self; the trailing re-send
(`postSucc`) does not run on this branch. -/
theorem set_successor_self (postSucc : NodeState → NodeState)
    (st : NodeState) (h : st.successor ≠ st.ip_addr) :
    set_successor postSucc st st.ip_addr =
      { st with
        elems := promote st.repl_elems st.elems
        repl_elems := []
        successor := st.ip_addr } := by
  obtain ⟨ip, pred, succ, fin, nx, el, rep, rem⟩ := st
  simp only [ne_eq] at h
  have h2 : ¬ (ip = succ) := fun hh => h hh.symm
  simp [set_successor, promoteRepl, h2]

/-- C10: when a node's successor is set to its own ip while it previously
pointed elsewhere (the ring collapsing back to a single node, as
`stabilize` does on a connection failure), every entry of `repl_elems` is
promoted into `elems` — overwriting any entry with the same key —
`repl_elems` becomes empty, and entries of `elems` whose key is not
replicated are untouched. -/
theorem c10_successor_self_promotes (postSucc : NodeState → NodeState)
    (st : NodeState) (hne : st.successor ≠ st.ip_addr)
    (hnd : (st.repl_elems.map Prod.fst).Nodup) :
    (set_successor postSucc st st.ip_addr).repl_elems = [] ∧
      (∀ k v, dictGet st.repl_elems k = some v →
        dictGet (set_successor postSucc st st.ip_addr).elems k = some v) ∧
      ∀ k, dictGet st.repl_elems k = none →
        dictGet (set_successor postSucc st st.ip_addr).elems k =
          dictGet st.elems k := by
  rw [set_successor_self postSucc st hne]
  exact ⟨rfl, fun k v hkv => promote_get_of_some _ _ _ _ hnd hkv,
    fun k hk => promote_get_of_none _ _ _ hk⟩

/-- Node `"a"` pointing at successor `"b"`, holding one primary key and one
replicated key whose id collides with nothing. -/
def stC10 : NodeState :=
  { ip_addr := "a"
    predecessor := none
    successor := "b"
    fingers := List.replicate 160 ""
    next := -1
    elems := [(3, "z")]
    repl_elems := [(1, "x")]
    removed_elems := ∅ }

/-- C10 witness: the collapse-promotion theorem at `stC10`. -/
theorem c10_promote_witness :
    stC10.successor ≠ stC10.ip_addr ∧
      (stC10.repl_elems.map Prod.fst).Nodup ∧
      (set_successor id stC10 stC10.ip_addr).repl_elems = [] ∧
      dictGet (set_successor id stC10 stC10.ip_addr).elems 1 = some "x" ∧
      dictGet (set_successor id stC10 stC10.ip_addr).elems 3 = some "z" := by
  refine ⟨by decide, by decide, ?_, ?_, ?_⟩
  · exact (c10_successor_self_promotes id stC10 (by decide) (by decide)).1
  · exact (c10_successor_self_promotes id stC10 (by decide)
      (by decide)).2.1 1 "x" rfl
  · exact ((c10_successor_self_promotes id stC10 (by decide)
      (by decide)).2.2 3 rfl).trans rfl

/-! ### C2 — single-node store / find round-trip -/

/-- C2: on a single-node ring (successor is self, every finger empty or
self), for a key whose hash is neither replicated nor tombstoned,
`store(k, v)` with the default flags succeeds and a subsequent
`find(k, is_file=false)` on the resulting state returns exactly `v` —
for every hash assignment and all network / disk oracles. -/
theorem c2_store_find_roundtrip (hash : String → Nat)
    (fs : String → Option String)
    (netFS : String → Nat → Option (Resp String))
    (netStore : String → PKey → String → Bool → Bool → Option String →
      Option (Resp (Option String)))
    (netFind : String → String → Bool → Option (Resp (Option String)))
    (st : NodeState) (k v : String)
    (h1 : st.successor = st.ip_addr)
    (h2 : ∀ f ∈ st.fingers, f = "" ∨ f = st.ip_addr)
    (h3 : dictGet st.repl_elems (hash k) = none)
    (h4 : hash k ∉ st.removed_elems) :
    (store hash netFS netStore st (PKey.str k) (some v) true false
        none).2.1.ok = true ∧
      find hash fs netFS netFind
        (store hash netFS netStore st (PKey.str k) (some v) true false
          none).1 k false = ⟨some v, true, ""⟩ := by
  have hfs := find_successor_single hash netFS st h1 h2 (hash k)
  have hstore : store hash netFS netStore st (PKey.str k) (some v) true
      false none =
      ({ st with elems := dictSet st.elems (hash k) v },
        newVoidResponse "Element stored", []) := by
    unfold store
    simp only [keyHash]
    rw [hfs]
    simp [newResponse, h4, h1]
  have hst1 : (store hash netFS netStore st (PKey.str k) (some v) true
      false none).1 =
      { st with elems := dictSet st.elems (hash k) v } := by
    rw [hstore]
  have h1' : ({ st with elems := dictSet st.elems (hash k) v } :
      NodeState).successor =
      ({ st with elems := dictSet st.elems (hash k) v } :
        NodeState).ip_addr := h1
  have h2' : ∀ f ∈ ({ st with elems := dictSet st.elems (hash k) v } :
      NodeState).fingers,
      f = "" ∨ f = ({ st with elems := dictSet st.elems (hash k) v } :
        NodeState).ip_addr := h2
  have hfs2 := find_successor_single hash netFS
    ({ st with elems := dictSet st.elems (hash k) v }) h1' h2' (hash k)
  constructor
  · rw [hstore]
    rfl
  · rw [hst1]
    simp [find, h3, hfs2, newResponse, strInIntSet, dictGet_set_self]

/-- Single empty node `"a"` owning the whole ring. -/
def stC2 : NodeState :=
  { ip_addr := "a"
    predecessor := none
    successor := "a"
    fingers := List.replicate 160 ""
    next := -1
    elems := []
    repl_elems := []
    removed_elems := ∅ }

/-- C2 witness: the round-trip theorem at the concrete single-node state
`stC2`, key `"k"`, value `"hello"`. -/
theorem c2_roundtrip_witness :
    stC2.successor = stC2.ip_addr ∧
      dictGet stC2.repl_elems (hashW "k") = none ∧
      hashW "k" ∉ stC2.removed_elems ∧
      (store hashW netFSNone netStoreNone stC2 (PKey.str "k")
          (some "hello") true false none).2.1.ok = true ∧
      find hashW fsNone netFSNone netFindNone
        (store hashW netFSNone netStoreNone stC2 (PKey.str "k")
          (some "hello") true false none).1 "k" false =
        ⟨some "hello", true, ""⟩ := by
  have hfin : ∀ f ∈ stC2.fingers, f = "" ∨ f = stC2.ip_addr := by
    intro f hf
    left
    exact List.eq_of_mem_replicate hf
  have h := c2_store_find_roundtrip hashW fsNone netFSNone netStoreNone
    netFindNone stC2 "k" "hello" rfl hfin rfl (by decide)
  exact ⟨rfl, rfl, by decide, h.1, h.2⟩

/-! ### C3 — handling of a join request at the bootstrap -/

/-- Remote-join oracle answering `"b"` (never consulted by the source). -/
def netJoinB : String → String → Resp String :=
  fun _ _ => newResponse "b"

/-- Bootstrap `"a"` (id 10) in a two-node ring with successor `"b"`
(id 20) and a populated finger table. -/
def stC3 : NodeState :=
  { ip_addr := "a"
    predecessor := none
    successor := "b"
    fingers := List.replicate 160 "b"
    next := -1
    elems := []
    repl_elems := []
    removed_elems := ∅ }

/-- C3 counterexample: the bootstrap `"a"` has someone else in its ring
(successor `"b"`), and node `"b"` — not `"a"` — is the successor of
`sha1("c") = 15` on the ring (`15 ∈ (10, 20]`, `15 ∉ (20, 10]`); the claim
says the join of `"c"` is forwarded and `"b"` is returned, yet the code
answers its own ip `"a"` and adopts `"c"` as predecessor:
`find_successor(self.node_id)` always falls back to self because both arc
tests degenerate (dht.py line 229). -/
theorem c3_counterexample :
    stC3.successor ≠ stC3.ip_addr ∧
      belongs (hashW "c") (hashW "a") (hashW "b") = true ∧
      belongs (hashW "c") (hashW "b") (hashW "a") = false ∧
      (join hashW netFSNone netJoinB id stC3 "c").2 = newResponse "a" ∧
      (join hashW netFSNone netJoinB id stC3 "c").1.predecessor =
        some "c" := by
  exact ⟨by decide, by decide, by decide, rfl, rfl⟩

/-- C3 (amended): for every join request by a node with ip `n` handled at
a bootstrap node — whether or not the bootstrap's ring has anyone else —
the bootstrap sets its predecessor to `n` and returns its own ip with
`ok=true`.  `find_successor(self.node_id)` always resolves to the
bootstrap itself, so the forwarding branch (which would moreover forward
`node_succ`, not `n`) is unreachable, and the returned ip is not in
general the successor of `sha1(n)`.  The handoff routines (`postPred`) do
not touch the predecessor pointer, which the framing hypothesis records. -/
theorem c3_join_always_adopts (hash : String → Nat)
    (netFS : String → Nat → Option (Resp String))
    (netJoin : String → String → Resp String)
    (postPred : NodeState → NodeState) (st : NodeState) (node_ip : String)
    (hframe : ∀ s, (postPred s).predecessor = s.predecessor) :
    (join hash netFS netJoin postPred st node_ip).2 =
        newResponse st.ip_addr ∧
      (join hash netFS netJoin postPred st node_ip).1.predecessor =
        some node_ip := by
  unfold join
  rw [find_successor_at_self_id]
  simp only [newResponse, Bool.true_eq_false, if_false, if_pos rfl]
  refine ⟨rfl, ?_⟩
  unfold set_predecessor
  by_cases hp : (some node_ip : Option String) = st.predecessor
  · rw [if_pos hp]
    exact hp.symm
  · rw [if_neg hp]
    simp [hframe]

/-- C3 witness: the amended join theorem at the two-node bootstrap state
`stC3` with joining node `"c"` and the identity handoff. -/
theorem c3_join_witness :
    (join hashW netFSNone netJoinB id stC3 "c").2 =
        newResponse stC3.ip_addr ∧
      (join hashW netFSNone netJoinB id stC3 "c").1.predecessor =
        some "c" :=
  c3_join_always_adopts hashW netFSNone netJoinB id stC3 "c"
    (fun _ => rfl)

/-! ### C9 — the `fix_fingers` tick -/

/-- Hash assignment placing node `"a"` at the top of the ring
(`2 ^ 160 - 1`, a valid 160-bit id) and `"b"` at 5. -/
def hashBig : String → Nat :=
  fun s => if s = "a" then 2 ^ 160 - 1 else if s = "b" then 5 else 0

/-- Node `"a"` at ring position `2 ^ 160 - 1` with successor `"b"`,
about to fix finger 159. -/
def stC9 : NodeState :=
  { ip_addr := "a"
    predecessor := none
    successor := "b"
    fingers := List.replicate 160 ""
    next := 158
    elems := []
    repl_elems := []
    removed_elems := ∅ }

/-- C9 counterexample: at `stC9` the tick fixes finger 159 with the lookup
target `node_id + 2 ^ 159 - 1 = 2 ^ 160 + 2 ^ 159 - 2 ≥ 2 ^ 160` — NOT
reduced modulo `2 ^ 160` — and stores `"b"`; `find_successor` applied to
the reduced target `(node_id + 2 ^ 159 - 1) % 2 ^ 160 = 2 ^ 159 - 2`
answers `"a" ≠ "b"`, so the claimed modular reduction is not what the code
computes. -/
theorem c9_counterexample :
    (fix_fingers_tick hashBig netFSNone stC9).next = 159 ∧
      (fix_fingers_tick hashBig netFSNone stC9).fingers.get? 159 =
        some "b" ∧
      (find_successor hashBig netFSNone stC9
        ((nodeId hashBig stC9 + 2 ^ 159 - 1) % 2 ^ 160)).data = "a" ∧
      nodeId hashBig stC9 + 2 ^ 159 - 1 ≥ 2 ^ 160 ∧
      ("b" : String) ≠ "a" := by
  exact ⟨rfl, rfl, rfl, by decide, by decide⟩

/-- C9 (amended): every `fix_fingers` tick advances `next` by one modulo
160 and sets `fingers[next]` to the result of `find_successor` applied to
the UNREDUCED target `node_id + 2 ^ next − 1` (which may reach or exceed
`2 ^ 160`), or to the empty string when the lookup fails. -/
theorem c9_fix_fingers_amended (hash : String → Nat)
    (netFS : String → Nat → Option (Resp String)) (st : NodeState)
    (hlo : -1 ≤ st.next) (hhi : st.next < 160) :
    (fix_fingers_tick hash netFS st).next = (st.next + 1) % 160 ∧
      (fix_fingers_tick hash netFS st).fingers =
        st.fingers.set ((st.next + 1) % 160).toNat
          (if (find_successor hash netFS st (nodeId hash st +
              2 ^ ((st.next + 1) % 160).toNat - 1)).ok
            then (find_successor hash netFS st (nodeId hash st +
              2 ^ ((st.next + 1) % 160).toNat - 1)).data
            else "") := by
  have hmod : (st.next + 1) % 160 =
      (if st.next + 1 ≥ 160 then 0 else st.next + 1 : Int) := by
    by_cases hc : st.next + 1 ≥ 160
    · rw [if_pos hc]
      omega
    · rw [if_neg hc]
      omega
  rw [hmod]
  exact ⟨rfl, rfl⟩

/-- Node `"a"` alone about to wrap its finger index from 159 to 0. -/
def stC9w : NodeState :=
  { ip_addr := "a"
    predecessor := none
    successor := "a"
    fingers := List.replicate 160 ""
    next := 159
    elems := []
    repl_elems := []
    removed_elems := ∅ }

/-- C9 witness: the amended tick theorem at the concrete state `stC9w`
(`next = 159` wraps to 0). -/
theorem c9_fix_fingers_witness :
    (-1 : Int) ≤ stC9w.next ∧ stC9w.next < 160 ∧
      (fix_fingers_tick hashW netFSNone stC9w).next = 0 :=
  ⟨by decide, by decide,
    ((c9_fix_fingers_amended hashW netFSNone stC9w (by decide)
      (by decide)).1).trans (by decide)⟩
